import Mathlib

/-!
Shallow embedding of the condition-inference engine of
`src/inspection_app.py`: the tag vocabularies, the per-photo condition
classifier `derive_condition_and_note`, and the multi-photo merger
`merge_conditions_and_notes`.

Python sets are embedded as `List String` (only membership is used).
Tag confidences are floats the classifier binds but never inspects, so the
confidence component is kept at a generic type `α`.  The `rank` dictionary
lookup of the merger can raise `KeyError` in Python; it is embedded as an
`Option Nat` lookup, and the merger consequently returns
`Option (String × String)`, with `none` standing for the raised exception.
-/

namespace InspectionApp

/-- Vocabulary `STRUCTURAL_NEGATIVE_TAGS` (src/inspection_app.py lines 92-97). -/
def STRUCTURAL_NEGATIVE_TAGS : List String :=
  ["crack", "cracked", "damage", "damaged", "broken", "stain", "stained",
   "dirty", "dirt", "mold", "mould", "rust", "rusty", "peeling", "chipped",
   "hole", "holes", "scratch", "scratched", "worn", "wear", "scuff",
   "scuffed", "dent", "dented", "leak", "leaking", "water damage"]

/-- Vocabulary `STRUCTURAL_MINOR_TAGS` (src/inspection_app.py lines 99-102). -/
def STRUCTURAL_MINOR_TAGS : List String :=
  ["worn", "wear", "scuff", "scuffed", "chipped", "scratch", "scratched",
   "discoloration", "discoloured", "faded"]

/-- Vocabulary `IGNORED_TAGS` (src/inspection_app.py lines 104-113). -/
def IGNORED_TAGS : List String :=
  ["cluttered", "messy", "clothes", "clothing", "bed", "blanket", "pillow",
   "box", "boxes", "bedding", "furniture", "sofa", "chair", "table",
   "personal items", "decor", "decoration", "toys", "laptop", "phone",
   "bag", "bags", "shoes", "books", "guitar", "instrument", "monitor",
   "tv", "television", "dresser", "couch", "lamp", "mirror", "frame",
   "plant", "plants", "bottle", "bottles", "laundry", "toy", "snake",
   "poster", "picture", "painting", "rug", "carpet", "mattress",
   "pillowcase", "sheet", "towel", "basket", "bin", "container"]

/-- Embedding of `derive_condition_and_note(tags, caption, item_name)`
(src/inspection_app.py lines 169-189).  The confidence component of each
tag is generic because the source binds `conf` and never uses it; the
`caption` parameter is likewise unused, exactly as in the source. -/
def derive_condition_and_note {α : Type} (tags : List (String × α))
    (caption : String) (item_name : String) : String × String :=
  let structural := tags.filter (fun t => decide (t.1 ∉ IGNORED_TAGS))
  let has_severe := structural.any (fun t => decide (t.1 ∈ STRUCTURAL_NEGATIVE_TAGS))
  let has_minor := structural.any (fun t => decide (t.1 ∈ STRUCTURAL_MINOR_TAGS))
  let condition := if has_severe then "Poor" else if has_minor then "Fair" else "Good"
  let note :=
    if condition = "Good" then
      item_name ++ " appears clean and well-maintained with no concerns noted."
    else if condition = "Fair" then
      item_name ++ " shows light wear consistent with normal use."
    else
      item_name ++ " shows visible damage and may require repair."
  (condition, note)

/-- Embedding of the dictionary `rank = {"Good": 1, "Fair": 2, "Poor": 3}`
(src/inspection_app.py line 203).  A Python lookup `rank[cond]` raises
`KeyError` off this domain; here it returns `none`. -/
def rank (cond : String) : Option Nat :=
  if cond = "Good" then some 1
  else if cond = "Fair" then some 2
  else if cond = "Poor" then some 3
  else none

/-- One iteration of the `for cond, note in results` loop of
`merge_conditions_and_notes` (src/inspection_app.py lines 207-211), acting
on the accumulator `(worst, notes)`.  `rank[cond]` is looked up first, as
in the source, so an unknown condition aborts the whole computation
(`none`) before the note is collected. -/
def mergeStep (acc : Option (String × List String)) (r : String × String) :
    Option (String × List String) :=
  match acc with
  | none => none
  | some (worst, notes) =>
    match rank r.1 with
    | none => none
    | some rc =>
      match rank worst with
      | none => none
      | some rw =>
        let worst1 := if rc > rw then r.1 else worst
        let notes1 := if r.2 ∈ notes then notes else notes ++ [r.2]
        some (worst1, notes1)

/-- Embedding of Python's `sep.join(items)`, as used on line 213 of the
source (`"\n".join(f"- {n}" for n in notes)`). -/
def joinWith (sep : String) : List String → String
  | [] => ""
  | a :: as => as.foldl (fun acc b => acc ++ sep ++ b) a

/-- Embedding of `merge_conditions_and_notes(results, item_name)`
(src/inspection_app.py lines 199-214).  `none` models the `KeyError`
raised when some input condition is outside the `rank` dictionary. -/
def merge_conditions_and_notes (results : List (String × String))
    (item_name : String) : Option (String × String) :=
  if results = [] then
    some ("Good", "- " ++ item_name ++ " appears clean and well-maintained.")
  else
    match results.foldl mergeStep (some ("Good", [])) with
    | none => none
    | some (worst, notes) =>
      some (worst, joinWith "\n" (notes.map (fun n => "- " ++ n)))

/-- The `has_severe` / `has_minor` scans of the classifier, read as an
existential over the raw tag list. -/
lemma any_structural_iff {α : Type} (tags : List (String × α)) (S : List String) :
    ((tags.filter (fun t => decide (t.1 ∉ IGNORED_TAGS))).any
        (fun t => decide (t.1 ∈ S)) = true) ↔
      ∃ t ∈ tags, t.1 ∉ IGNORED_TAGS ∧ t.1 ∈ S := by
  simp [List.any_eq_true, List.mem_filter, and_assoc]

/-- The condition component of `derive_condition_and_note`, written out. -/
lemma derive_condition_def {α : Type} (tags : List (String × α))
    (caption item_name : String) :
    (derive_condition_and_note tags caption item_name).1 =
      if (tags.filter (fun t => decide (t.1 ∉ IGNORED_TAGS))).any
          (fun t => decide (t.1 ∈ STRUCTURAL_NEGATIVE_TAGS)) then "Poor"
      else if (tags.filter (fun t => decide (t.1 ∉ IGNORED_TAGS))).any
          (fun t => decide (t.1 ∈ STRUCTURAL_MINOR_TAGS)) then "Fair"
      else "Good" := rfl

/-- The note component of `derive_condition_and_note`, written out as a
function of its condition component. -/
lemma derive_note_def {α : Type} (tags : List (String × α))
    (caption item_name : String) :
    (derive_condition_and_note tags caption item_name).2 =
      if (derive_condition_and_note tags caption item_name).1 = "Good" then
        item_name ++ " appears clean and well-maintained with no concerns noted."
      else if (derive_condition_and_note tags caption item_name).1 = "Fair" then
        item_name ++ " shows light wear consistent with normal use."
      else
        item_name ++ " shows visible damage and may require repair." := rfl

/-- Claim C1: any tag whose name is in `STRUCTURAL_NEGATIVE_TAGS` and not in
`IGNORED_TAGS` forces the classifier to return condition `"Poor"`, no matter
which other tags (minor ones included) are present. -/
theorem classifier_severe_dominates {α : Type} (tags : List (String × α))
    (caption item_name : String)
    (h : ∃ t ∈ tags, t.1 ∈ STRUCTURAL_NEGATIVE_TAGS ∧ t.1 ∉ IGNORED_TAGS) :
    (derive_condition_and_note tags caption item_name).1 = "Poor" := by
  rw [derive_condition_def]
  have hsev : (tags.filter (fun t => decide (t.1 ∉ IGNORED_TAGS))).any
      (fun t => decide (t.1 ∈ STRUCTURAL_NEGATIVE_TAGS)) = true := by
    rw [any_structural_iff]
    obtain ⟨t, ht, h1, h2⟩ := h
    exact ⟨t, ht, h2, h1⟩
  rw [hsev]
  rfl

theorem classifier_severe_dominates_witness :
    (∃ t ∈ [(("crack" : String), (0.9 : ℚ)), ("scuffed", 0.7), ("bed", 0.8)],
        t.1 ∈ STRUCTURAL_NEGATIVE_TAGS ∧ t.1 ∉ IGNORED_TAGS) ∧
      (derive_condition_and_note
          [(("crack" : String), (0.9 : ℚ)), ("scuffed", 0.7), ("bed", 0.8)]
          "" "Walls").1 = "Poor" :=
  ⟨by decide, classifier_severe_dominates _ "" "Walls" (by decide)⟩

/-- Claim C4 (counterexample): on `tags = [("scuffed", 0.7)]` the classifier
does not return condition `"Fair"` — "scuffed" is also a member of
`STRUCTURAL_NEGATIVE_TAGS`, so the result is `"Poor"`. -/
theorem classifier_scuffed_not_fair :
    ¬ ((derive_condition_and_note [(("scuffed" : String), (0.7 : ℚ))] "" "Walls").1
        = "Fair") := by
  decide

/-- Claim C4 (amended): on `tags = [("scuffed", c)]`, for any confidence,
caption and item label, the classifier returns condition `"Poor"` with the
"visible damage" note, which mentions neither light wear nor "scuffed". -/
theorem classifier_scuffed_poor (conf : ℚ) (caption item_name : String) :
    derive_condition_and_note [("scuffed", conf)] caption item_name
      = ("Poor", item_name ++ " shows visible damage and may require repair.") := rfl

/-- Claim C5: at least one tag name in `STRUCTURAL_MINOR_TAGS`, none in
`STRUCTURAL_NEGATIVE_TAGS`, and all tag names outside `IGNORED_TAGS`, yields
condition `"Fair"`. -/
theorem classifier_minor_fair {α : Type} (tags : List (String × α))
    (caption item_name : String)
    (hmin : ∃ t ∈ tags, t.1 ∈ STRUCTURAL_MINOR_TAGS)
    (hneg : ∀ t ∈ tags, t.1 ∉ STRUCTURAL_NEGATIVE_TAGS)
    (hign : ∀ t ∈ tags, t.1 ∉ IGNORED_TAGS) :
    (derive_condition_and_note tags caption item_name).1 = "Fair" := by
  rw [derive_condition_def]
  have hsev : (tags.filter (fun t => decide (t.1 ∉ IGNORED_TAGS))).any
      (fun t => decide (t.1 ∈ STRUCTURAL_NEGATIVE_TAGS)) = false := by
    rw [Bool.eq_false_iff]
    intro hc
    obtain ⟨t, ht, -, hmem⟩ := (any_structural_iff tags _).mp hc
    exact hneg t ht hmem
  have hm : (tags.filter (fun t => decide (t.1 ∉ IGNORED_TAGS))).any
      (fun t => decide (t.1 ∈ STRUCTURAL_MINOR_TAGS)) = true := by
    rw [any_structural_iff]
    obtain ⟨t, ht, hmem⟩ := hmin
    exact ⟨t, ht, hign t ht, hmem⟩
  rw [hsev, hm]
  rfl

theorem classifier_minor_fair_witness :
    (∃ t ∈ [(("faded" : String), (0.5 : ℚ))], t.1 ∈ STRUCTURAL_MINOR_TAGS) ∧
      (∀ t ∈ [(("faded" : String), (0.5 : ℚ))], t.1 ∉ STRUCTURAL_NEGATIVE_TAGS) ∧
      (∀ t ∈ [(("faded" : String), (0.5 : ℚ))], t.1 ∉ IGNORED_TAGS) ∧
      (derive_condition_and_note [(("faded" : String), (0.5 : ℚ))] "" "Walls").1 = "Fair" :=
  ⟨by decide, by decide, by decide,
    classifier_minor_fair _ "" "Walls" (by decide) (by decide) (by decide)⟩

/-- Claim C6: if every tag name is in `IGNORED_TAGS` (in particular for the
empty tag sequence), the classifier returns `"Good"` together with the fixed
reassurance note, which starts with the item label and interpolates no tag
names (it does not depend on `tags` at all). -/
theorem classifier_ignored_good {α : Type} (tags : List (String × α))
    (caption item_name : String)
    (h : ∀ t ∈ tags, t.1 ∈ IGNORED_TAGS) :
    derive_condition_and_note tags caption item_name
      = ("Good",
          item_name ++ " appears clean and well-maintained with no concerns noted.") := by
  have hfil : tags.filter (fun t => decide (t.1 ∉ IGNORED_TAGS)) = [] := by
    rw [List.filter_eq_nil_iff]
    intro t ht
    simpa using h t ht
  have h1 : (derive_condition_and_note tags caption item_name).1 = "Good" := by
    rw [derive_condition_def, hfil]
    rfl
  have h2 : (derive_condition_and_note tags caption item_name).2 =
      item_name ++ " appears clean and well-maintained with no concerns noted." := by
    rw [derive_note_def, h1]
    rfl
  exact Prod.ext h1 h2

theorem classifier_ignored_good_witness :
    (∀ t ∈ [(("bed" : String), (0.5 : ℚ)), ("sofa", 0.9)], t.1 ∈ IGNORED_TAGS) ∧
      derive_condition_and_note [(("bed" : String), (0.5 : ℚ)), ("sofa", 0.9)] "" "Walls"
        = ("Good", "Walls appears clean and well-maintained with no concerns noted.") :=
  ⟨by decide, classifier_ignored_good _ "" "Walls" (by decide)⟩

/-- The `has_severe` / `has_minor` scans factor through the tag names: the
confidence components never influence them. -/
lemma any_structural_names {α : Type} (tags : List (String × α)) (S : List String) :
    ((tags.filter (fun t => decide (t.1 ∉ IGNORED_TAGS))).any
        (fun t => decide (t.1 ∈ S))) =
      (((tags.map Prod.fst).filter (fun n => decide (n ∉ IGNORED_TAGS))).any
        (fun n => decide (n ∈ S))) := by
  induction tags with
  | nil => rfl
  | cons a l ih =>
    by_cases h : a.1 ∈ IGNORED_TAGS
    · have hd : ¬ (decide (a.1 ∉ IGNORED_TAGS) = true) := by simp [h]
      rw [List.filter_cons, List.map_cons, List.filter_cons, if_neg hd, if_neg hd]
      exact ih
    · have hd : decide (a.1 ∉ IGNORED_TAGS) = true := by simp [h]
      rw [List.filter_cons, List.map_cons, List.filter_cons, if_pos hd, if_pos hd,
        List.any_cons, List.any_cons, ih]

/-- Claim C9: the classifier is a pure function of the tag-name sequence and
the item label — the confidence values and the caption never affect the
returned (condition, note) pair. -/
theorem classifier_independent_of_confidence_and_caption {α β : Type}
    (tags₁ : List (String × α)) (tags₂ : List (String × β))
    (h : tags₁.map Prod.fst = tags₂.map Prod.fst)
    (caption₁ caption₂ item_name : String) :
    derive_condition_and_note tags₁ caption₁ item_name
      = derive_condition_and_note tags₂ caption₂ item_name := by
  have e1 : (derive_condition_and_note tags₁ caption₁ item_name).1
      = (derive_condition_and_note tags₂ caption₂ item_name).1 := by
    simp only [derive_condition_def, any_structural_names, h]
  have e2 : (derive_condition_and_note tags₁ caption₁ item_name).2
      = (derive_condition_and_note tags₂ caption₂ item_name).2 := by
    rw [derive_note_def, derive_note_def, e1]
  exact Prod.ext e1 e2

theorem classifier_independent_witness :
    ([(("crack" : String), (0.9 : ℚ))].map Prod.fst
        = [(("crack" : String), (3 : ℕ))].map Prod.fst) ∧
      derive_condition_and_note [(("crack" : String), (0.9 : ℚ))] "a wall" "Walls"
        = derive_condition_and_note [(("crack" : String), (3 : ℕ))] "another view" "Walls" :=
  ⟨by decide,
    classifier_independent_of_confidence_and_caption _ _ (by decide)
      "a wall" "another view" "Walls"⟩

/-- Claim C10: with the shipped vocabularies the classifier returns `"Fair"`
iff some non-ignored tag name lies in {"discoloration", "discoloured",
"faded"} and no non-ignored tag name lies in `STRUCTURAL_NEGATIVE_TAGS`;
every other member of `STRUCTURAL_MINOR_TAGS` is also a negative tag and so
alone yields `"Poor"`. -/
theorem classifier_fair_iff {α : Type} (tags : List (String × α))
    (caption item_name : String) :
    (derive_condition_and_note tags caption item_name).1 = "Fair" ↔
      ((∃ t ∈ tags, t.1 ∉ IGNORED_TAGS ∧
          t.1 ∈ (["discoloration", "discoloured", "faded"] : List String)) ∧
        ∀ t ∈ tags, t.1 ∉ IGNORED_TAGS → t.1 ∉ STRUCTURAL_NEGATIVE_TAGS) := by
  have hsub1 : ∀ s ∈ STRUCTURAL_MINOR_TAGS, s ∉ STRUCTURAL_NEGATIVE_TAGS →
      s ∈ (["discoloration", "discoloured", "faded"] : List String) := by decide
  have hsub2 : ∀ s ∈ (["discoloration", "discoloured", "faded"] : List String),
      s ∈ STRUCTURAL_MINOR_TAGS := by decide
  rw [derive_condition_def]
  cases hs : (tags.filter (fun t => decide (t.1 ∉ IGNORED_TAGS))).any
      (fun t => decide (t.1 ∈ STRUCTURAL_NEGATIVE_TAGS)) with
  | true =>
    obtain ⟨t, ht, htn, htneg⟩ := (any_structural_iff tags _).mp hs
    rw [if_pos rfl]
    constructor
    · intro hcontra
      exact absurd hcontra (by decide)
    · rintro ⟨-, hall⟩
      exact absurd htneg (hall t ht htn)
  | false =>
    have hallneg : ∀ t ∈ tags, t.1 ∉ IGNORED_TAGS →
        t.1 ∉ STRUCTURAL_NEGATIVE_TAGS := by
      intro t ht h1 h2
      have hc := (any_structural_iff tags STRUCTURAL_NEGATIVE_TAGS).mpr ⟨t, ht, h1, h2⟩
      rw [hs] at hc
      cases hc
    rw [if_neg (by decide)]
    cases hm : (tags.filter (fun t => decide (t.1 ∉ IGNORED_TAGS))).any
        (fun t => decide (t.1 ∈ STRUCTURAL_MINOR_TAGS)) with
    | true =>
      obtain ⟨t, ht, htn, htmin⟩ := (any_structural_iff tags _).mp hm
      rw [if_pos rfl]
      constructor
      · intro _
        exact ⟨⟨t, ht, htn, hsub1 t.1 htmin (hallneg t ht htn)⟩, hallneg⟩
      · intro _
        rfl
    | false =>
      have hallmin : ∀ t ∈ tags, t.1 ∉ IGNORED_TAGS →
          t.1 ∉ STRUCTURAL_MINOR_TAGS := by
        intro t ht h1 h2
        have hc := (any_structural_iff tags STRUCTURAL_MINOR_TAGS).mpr ⟨t, ht, h1, h2⟩
        rw [hm] at hc
        cases hc
      rw [if_neg (by decide)]
      constructor
      · intro hcontra
        exact absurd hcontra (by decide)
      · rintro ⟨⟨t, ht, htn, ht3⟩, -⟩
        exact absurd (hsub2 t.1 ht3) (hallmin t ht htn)

/-- Folding the merge loop from an already-failed accumulator stays failed. -/
lemma foldl_mergeStep_none (l : List (String × String)) :
    l.foldl mergeStep none = none := by
  induction l with
  | nil => rfl
  | cons a l ih =>
    rw [List.foldl_cons]
    exact ih

/-- If some condition in the list is outside the `rank` dictionary, the merge
loop fails (the Python loop raises `KeyError`). -/
lemma foldl_mergeStep_unknown (l : List (String × String)) :
    ∀ acc : Option (String × List String), (∃ r ∈ l, rank r.1 = none) →
      l.foldl mergeStep acc = none := by
  induction l with
  | nil =>
    rintro acc ⟨r, hr, -⟩
    exact absurd hr (List.not_mem_nil r)
  | cons a l ih =>
    rintro acc ⟨r, hr, hrk⟩
    rw [List.foldl_cons]
    rcases List.mem_cons.mp hr with rfl | hr'
    · have hstep : mergeStep acc r = none := by
        cases acc with
        | none => rfl
        | some p =>
          obtain ⟨w, ns⟩ := p
          simp [mergeStep, hrk]
      rw [hstep]
      exact foldl_mergeStep_none l
    · exact ih _ ⟨r, hr', hrk⟩

/-- Invariant of the merge loop: starting from a rankable `worst`, over
rankable inputs, the loop succeeds and its final `worst` is one of the
inputs (or the start value) and rank-dominates the start value and every
input. -/
lemma foldl_mergeStep_spec (l : List (String × String)) :
    ∀ (w : String) (ns : List String),
      (rank w).isSome = true →
      (∀ r ∈ l, (rank r.1).isSome = true) →
      ∃ w' ns', l.foldl mergeStep (some (w, ns)) = some (w', ns') ∧
        (w' = w ∨ w' ∈ l.map Prod.fst) ∧
        (rank w).getD 0 ≤ (rank w').getD 0 ∧
        ∀ r ∈ l, (rank r.1).getD 0 ≤ (rank w').getD 0 := by
  induction l with
  | nil =>
    intro w ns hw _
    exact ⟨w, ns, rfl, Or.inl rfl, le_refl _,
      fun r hr => absurd hr (List.not_mem_nil r)⟩
  | cons a l ih =>
    intro w ns hw hall
    obtain ⟨rc, hrc⟩ := Option.isSome_iff_exists.mp (hall a (List.mem_cons_self a l))
    obtain ⟨rw0, hrw⟩ := Option.isSome_iff_exists.mp hw
    have ga : (rank a.1).getD 0 = rc := by rw [hrc]; rfl
    have gw : (rank w).getD 0 = rw0 := by rw [hrw]; rfl
    have hstep : mergeStep (some (w, ns)) a =
        some (if rc > rw0 then a.1 else w,
          if a.2 ∈ ns then ns else ns ++ [a.2]) := by
      simp [mergeStep, hrc, hrw]
    have hw1 : (rank (if rc > rw0 then a.1 else w)).isSome = true := by
      by_cases hcmp : rc > rw0
      · rw [if_pos hcmp, hrc]; rfl
      · rw [if_neg hcmp]; exact hw
    have g1 : (rank w).getD 0 ≤ (rank (if rc > rw0 then a.1 else w)).getD 0 := by
      by_cases hcmp : rc > rw0
      · rw [if_pos hcmp, ga, gw]; exact le_of_lt hcmp
      · rw [if_neg hcmp]
    have g2 : (rank a.1).getD 0 ≤ (rank (if rc > rw0 then a.1 else w)).getD 0 := by
      by_cases hcmp : rc > rw0
      · rw [if_pos hcmp]
      · rw [if_neg hcmp, ga, gw]; exact le_of_not_lt hcmp
    obtain ⟨w', ns', hfold, hmem, hle, hub⟩ :=
      ih (if rc > rw0 then a.1 else w) (if a.2 ∈ ns then ns else ns ++ [a.2]) hw1
        (fun r hr => hall r (List.mem_cons_of_mem a hr))
    refine ⟨w', ns', ?_, ?_, le_trans g1 hle, ?_⟩
    · rw [List.foldl_cons, hstep]
      exact hfold
    · rw [List.map_cons]
      rcases hmem with h | h
      · by_cases hcmp : rc > rw0
        · rw [if_pos hcmp] at h
          exact Or.inr (h ▸ List.mem_cons_self a.1 (l.map Prod.fst))
        · rw [if_neg hcmp] at h
          exact Or.inl h
      · exact Or.inr (List.mem_cons_of_mem a.1 h)
    · intro r hr
      rcases List.mem_cons.mp hr with rfl | hr'
      · exact le_trans g2 hle
      · exact hub r hr'

/-- Claim C2: over a non-empty list of results whose conditions all lie in
{Good, Fair, Poor}, the merger succeeds and returns a condition that occurs
among the inputs and rank-dominates every input — i.e. the maximum under
Good < Fair < Poor (`rank` maps Good, Fair, Poor to 1, 2, 3). -/
theorem merge_condition_eq_max (results : List (String × String)) (item_name : String)
    (hne : results ≠ [])
    (hval : ∀ r ∈ results, r.1 = "Good" ∨ r.1 = "Fair" ∨ r.1 = "Poor") :
    ∃ c note, merge_conditions_and_notes results item_name = some (c, note) ∧
      c ∈ results.map Prod.fst ∧
      ∀ r ∈ results, (rank r.1).getD 0 ≤ (rank c).getD 0 := by
  have hsome : ∀ r ∈ results, (rank r.1).isSome = true := by
    intro r hr
    rcases hval r hr with h | h | h <;> rw [h] <;> decide
  obtain ⟨w', ns', hfold, hmem, -, hub⟩ :=
    foldl_mergeStep_spec results "Good" [] (by decide) hsome
  refine ⟨w', joinWith "\n" (ns'.map (fun n => "- " ++ n)), ?_, ?_, hub⟩
  · unfold merge_conditions_and_notes
    rw [if_neg hne, hfold]
  · rcases hmem with h | h
    · obtain ⟨a, l, rfl⟩ := List.exists_cons_of_ne_nil hne
      have hua := hub a (List.mem_cons_self a l)
      rw [h] at hua ⊢
      rcases hval a (List.mem_cons_self a l) with h1 | h1 | h1
      · rw [List.map_cons, ← h1]
        exact List.mem_cons_self a.1 (l.map Prod.fst)
      · rw [h1] at hua
        exact absurd hua (by decide)
      · rw [h1] at hua
        exact absurd hua (by decide)
    · exact h

theorem merge_condition_eq_max_witness :
    (([("Fair", "a"), ("Good", "b")] : List (String × String)) ≠ []) ∧
      ∃ c note,
        merge_conditions_and_notes [("Fair", "a"), ("Good", "b")] "Walls"
          = some (c, note) ∧
        c ∈ ([("Fair", "a"), ("Good", "b")] : List (String × String)).map Prod.fst ∧
        ∀ r ∈ ([("Fair", "a"), ("Good", "b")] : List (String × String)),
          (rank r.1).getD 0 ≤ (rank c).getD 0 :=
  ⟨by decide, merge_condition_eq_max _ "Walls" (by decide) (by decide)⟩

/-- Claim C3 (counterexample): on a results list carrying the condition
`"Bad"` (outside {Good, Fair, Poor}), the merger does not return normally —
the `rank["Bad"]` lookup raises `KeyError` (modelled as `none`), so nothing
is coerced to `"Fair"`. -/
theorem merge_unknown_condition_no_result :
    (merge_conditions_and_notes [("Bad", "broken item")] "Walls").isSome = false := by
  decide

/-- Claim C3 (amended): whenever some input condition lies outside the
`rank` dictionary {Good, Fair, Poor}, the merger propagates the failure
(`KeyError` in Python, `none` here) instead of coercing it to `"Fair"`. -/
theorem merge_unknown_condition_fails (results : List (String × String))
    (item_name : String) (h : ∃ r ∈ results, rank r.1 = none) :
    merge_conditions_and_notes results item_name = none := by
  have hne : results ≠ [] := by
    rintro rfl
    obtain ⟨r, hr, -⟩ := h
    exact absurd hr (List.not_mem_nil r)
  unfold merge_conditions_and_notes
  rw [if_neg hne, foldl_mergeStep_unknown results _ h]

theorem merge_unknown_condition_fails_witness :
    (∃ r ∈ ([("Bad", "broken item")] : List (String × String)), rank r.1 = none) ∧
      merge_conditions_and_notes [("Bad", "broken item")] "Walls" = none :=
  ⟨by decide, merge_unknown_condition_fails _ "Walls" (by decide)⟩

/-- Claim C7: merging an empty results list does not fail: it returns
condition `"Good"` and the default "clean and well-maintained" note, which
contains the item label. -/
theorem merge_empty_default (item_name : String) :
    merge_conditions_and_notes [] item_name
      = some ("Good", "- " ++ item_name ++ " appears clean and well-maintained.") := rfl

/-- Claim C8: merging a duplicated result keeps its note once: for any
result `(c, n)` with a valid condition, `merge [(c, n), (c, n)]` returns the
condition `c` and a single bulleted line containing `n` exactly once. -/
theorem merge_duplicate_note_once (c n item_name : String)
    (h : c = "Good" ∨ c = "Fair" ∨ c = "Poor") :
    merge_conditions_and_notes [(c, n), (c, n)] item_name = some (c, "- " ++ n) := by
  have hne : ([(c, n), (c, n)] : List (String × String)) ≠ [] := by simp
  rcases h with rfl | rfl | rfl <;>
  · unfold merge_conditions_and_notes
    rw [if_neg hne]
    simp [mergeStep, rank, joinWith]

theorem merge_duplicate_note_once_witness :
    (("Poor" : String) = "Good" ∨ ("Poor" : String) = "Fair" ∨ ("Poor" : String) = "Poor") ∧
      merge_conditions_and_notes [("Poor", "cracked wall"), ("Poor", "cracked wall")] "Walls"
        = some ("Poor", "- cracked wall") :=
  ⟨by decide, merge_duplicate_note_once "Poor" "cracked wall" "Walls" (by decide)⟩

end InspectionApp
